import Mathlib

/-!
Verification of the polling-and-retry control loop of the SharePoint Graph-API
client (`src/core/sharepoint_class.py`).

The embedding models each remote call by its observable outcome: an HTTP
response is a status code, a body text, and an optional Retry-After header.
A run of a retry loop is driven by a stream `Nat → Resp` giving the response
to the k-th request issued by that loop.  The result of a run records the
outcome (success / raised exception with its message), the number of requests
issued, and the list of sleep durations performed, in order.
-/

/-- An HTTP response as observed by the client: `status` is the status code,
`text` the body (`response.text`), `retryAfter` the optional Retry-After
header value (`response.headers.get("Retry-After")`). -/
structure Resp where
  status : Nat
  text : String
  retryAfter : Option String
deriving DecidableEq, Repr

/-- `response.ok` of the requests library: true unless the status code is in
[400, 600) (raise_for_status raises exactly for those). -/
def Resp.ok (r : Resp) : Bool := !(decide (400 ≤ r.status) && decide (r.status < 600))

/-- Python's substring test `needle in hay`. -/
def strContains (hay needle : String) : Bool := decide (needle.data <:+: hay.data)

/-- The marker the source looks for in error bodies. -/
def maxDurationMarker : String := "MaxRequestDurationExceeded"

/-- The retryable condition of `update_range_data`
(`response.status_code == 429 or "MaxRequestDurationExceeded" in response.text`). -/
def updRetryable (r : Resp) : Bool :=
  (r.status == 429) || strContains r.text maxDurationMarker

/-- The retryable condition of `refresh_pivot_table` and
`refresh_individual_pivot_table` (`"MaxRequestDurationExceeded" in response_text`). -/
def refRetryable (r : Resp) : Bool := strContains r.text maxDurationMarker

/-- Python `s and s.isdigit()` on the header string: nonempty and all digits. -/
def isDigitStr (s : String) : Bool := !s.data.isEmpty && s.data.all Char.isDigit

/-- Python `int(s)` on an all-digit string: base-10 value of the digits. -/
def digitsToNat (l : List Char) : Nat := l.foldl (fun n c => n * 10 + (c.toNat - 48)) 0

/-- Wait-time computation of `update_range_data`:
`int(retry_after) if retry_after and retry_after.isdigit() else (2 ** attempt)`.
A missing header is `none`. -/
def hintWait (h : Option String) (attempt : Nat) : Nat :=
  match h with
  | some s => if isDigitStr s then digitsToNat s.data else 2 ^ attempt
  | none => 2 ^ attempt

/-- The exhaustion message of `update_range_data`:
`f"Failed to update rows {start+1} to {end} after {max_retries} attempts."`. -/
def updExhaustMsg (s e maxR : Nat) : String :=
  "Failed to update rows " ++ toString (s + 1) ++ " to " ++ toString e ++
    " after " ++ toString maxR ++ " attempts."

/-- The non-retryable failure message of `update_range_data`:
`f"Failed to update rows {start+1} to {end}: {response.text}"`. -/
def updFailMsg (s e : Nat) (body : String) : String :=
  "Failed to update rows " ++ toString (s + 1) ++ " to " ++ toString e ++ ": " ++ body

/-- Outcome of a run of `update_range_data`: the value returned (`success`,
carrying the returned bool), or the exception raised (`nonRetryable` from the
else-branch, `exhausted` from the post-loop raise).  `patches` counts PATCH
requests issued; `waits` lists the sleep durations performed, in order. -/
inductive UpdateResult where
  | success (returned : Bool) (patches : Nat) (waits : List Nat)
  | nonRetryable (msg : String) (patches : Nat) (waits : List Nat)
  | exhausted (msg : String) (patches : Nat) (waits : List Nat)
deriving DecidableEq, Repr

def UpdateResult.patches : UpdateResult → Nat
  | .success _ p _ => p
  | .nonRetryable _ p _ => p
  | .exhausted _ p _ => p

def UpdateResult.waits : UpdateResult → List Nat
  | .success _ _ w => w
  | .nonRetryable _ _ w => w
  | .exhausted _ _ w => w

def UpdateResult.isExhausted : UpdateResult → Bool
  | .exhausted _ _ _ => true
  | _ => false

def UpdateResult.message : UpdateResult → String
  | .success _ _ _ => ""
  | .nonRetryable m _ _ => m
  | .exhausted m _ _ => m

/-- True unless the run returned `False` from a success branch. -/
def UpdateResult.neverFalse : UpdateResult → Bool
  | .success b _ _ => b
  | _ => true

/-- The loop `for attempt in range(max_retries)` of `update_range_data`.
`rem` is the number of loop iterations left (`max_retries - attempt`),
`attempt` the 0-indexed attempt counter (also the number of PATCH requests
issued so far), `acc` the sleeps performed so far in reverse order. -/
def updateGo (resp : Nat → Resp) (s e maxR : Nat) : Nat → Nat → List Nat → UpdateResult
  | 0, attempt, acc => .exhausted (updExhaustMsg s e maxR) attempt acc.reverse
  | rem + 1, attempt, acc =>
    let r := resp attempt
    if r.ok then .success true (attempt + 1) acc.reverse
    else if updRetryable r then
      updateGo resp s e maxR rem (attempt + 1) (hintWait r.retryAfter attempt :: acc)
    else .nonRetryable (updFailMsg s e r.text) (attempt + 1) acc.reverse

/-- `update_range_data` (src/core/sharepoint_class.py, lines 466-493), with the
k-th PATCH response given by `resp k`.  `s`, `e` are the `start`/`end` row
indices, `maxR` is `max_retries`. -/
def update_range_data (resp : Nat → Resp) (s e maxR : Nat) : UpdateResult :=
  updateGo resp s e maxR maxR 0 []

example :
    update_range_data (fun _ => ⟨429, "busy", none⟩) 0 5 2
      = .exhausted (updExhaustMsg 0 5 2) 2 [1, 2] := by decide

example :
    update_range_data (fun _ => ⟨200, "", none⟩) 0 5 3 = .success true 1 [] := by decide

example :
    update_range_data (fun _ => ⟨404, "not found", none⟩) 0 5 3
      = .nonRetryable (updFailMsg 0 5 "not found") 1 [] := by decide

/-- Outcome of the diagnostic GET on the pivot-tables endpoint: the request
returned a response (`resp`), or the session call itself raised (`raised`). -/
inductive DiagOutcome where
  | resp (r : Resp)
  | raised (msg : String)
deriving DecidableEq, Repr

/-- Python formatting of `last_refresh_error` (a str, or None). -/
def lastErrStr : Option String → String
  | some t => t
  | none => "None"

/-- The exhaustion message of `refresh_pivot_table` /
`refresh_individual_pivot_table`:
`f"Max retry attempts reached. The pivot table refresh could not be completed. Last error: {last_refresh_error}"`. -/
def refExhaustMsg (lastErr : Option String) : String :=
  "Max retry attempts reached. The pivot table refresh could not be completed. Last error: "
    ++ lastErrStr lastErr

/-- The non-retryable failure message of the refresh functions:
`f"Failed to refresh Pivot Table: {response_text}"`. -/
def refFailMsg (body : String) : String := "Failed to refresh Pivot Table: " ++ body

/-- Outcome of a run of `refresh_pivot_table`: normal return (`success`), the
non-retryable raise (`failedRefresh`), the post-loop raise (`exhausted`), or an
exception raised by the diagnostic GET itself, which propagates because that
GET is not wrapped in a try/except (`diagRaised`).  `posts` counts POST
requests issued, `waits` the sleeps in order, `diagCalls` the diagnostic GET
requests attempted. -/
inductive RefreshResult where
  | success (posts : Nat) (waits : List Nat)
  | failedRefresh (msg : String) (posts : Nat) (waits : List Nat) (diagCalls : Nat)
  | exhausted (msg : String) (posts : Nat) (waits : List Nat) (diagCalls : Nat)
  | diagRaised (msg : String) (posts : Nat) (waits : List Nat) (diagCalls : Nat)
deriving DecidableEq, Repr

def RefreshResult.posts : RefreshResult → Nat
  | .success p _ => p
  | .failedRefresh _ p _ _ => p
  | .exhausted _ p _ _ => p
  | .diagRaised _ p _ _ => p

def RefreshResult.waits : RefreshResult → List Nat
  | .success _ w => w
  | .failedRefresh _ _ w _ => w
  | .exhausted _ _ w _ => w
  | .diagRaised _ _ w _ => w

def RefreshResult.isExhausted : RefreshResult → Bool
  | .exhausted _ _ _ _ => true
  | _ => false

def RefreshResult.message : RefreshResult → String
  | .success _ _ => ""
  | .failedRefresh m _ _ _ => m
  | .exhausted m _ _ _ => m
  | .diagRaised m _ _ _ => m

/-- The `while retry_count < max_retries` loop of `refresh_pivot_table`.
`fuel = maxR - rc` iterations remain; `rc` is `retry_count`, `pc` the number
of POSTs issued so far, `acc` the sleeps so far in reverse order, `lastErr`
the running `last_refresh_error`.  At most one diagnostic GET can occur in a
run, so a single `diag` outcome suffices. -/
def refreshGo (posts : Nat → Resp) (diag : DiagOutcome) (maxR : Nat) :
    Nat → Nat → Nat → List Nat → Option String → RefreshResult
  | 0, _, pc, acc, lastErr =>
    match diag with
    | .raised m => .diagRaised m pc acc.reverse 1
    | .resp _ => .exhausted (refExhaustMsg lastErr) pc acc.reverse 1
  | fuel + 1, rc, pc, acc, _ =>
    let r := posts pc
    if r.ok then .success (pc + 1) acc.reverse
    else if refRetryable r then
      refreshGo posts diag maxR fuel (rc + 1) (pc + 1) (2 ^ (rc + 1) :: acc) (some r.text)
    else
      match diag with
      | .raised m => .diagRaised m (pc + 1) acc.reverse 1
      | .resp _ => .failedRefresh (refFailMsg r.text) (pc + 1) acc.reverse 1

/-- `refresh_pivot_table` (src/core/sharepoint_class.py, lines 496-550), with
the k-th POST response given by `posts k` and the outcome of the (single
possible) diagnostic GET given by `diag`. -/
def refresh_pivot_table (posts : Nat → Resp) (diag : DiagOutcome) (maxR : Nat) : RefreshResult :=
  refreshGo posts diag maxR maxR 0 0 [] none

/-- Outcome of a run of `refresh_individual_pivot_table`, which has no
diagnostic GET. -/
inductive RefreshIndivResult where
  | success (posts : Nat) (waits : List Nat)
  | failedRefresh (msg : String) (posts : Nat) (waits : List Nat)
  | exhausted (msg : String) (posts : Nat) (waits : List Nat)
deriving DecidableEq, Repr

def RefreshIndivResult.waits : RefreshIndivResult → List Nat
  | .success _ w => w
  | .failedRefresh _ _ w => w
  | .exhausted _ _ w => w

/-- The `while retry_count < max_retries` loop of
`refresh_individual_pivot_table`; same state convention as `refreshGo`. -/
def refreshIndivGo (posts : Nat → Resp) (maxR : Nat) :
    Nat → Nat → Nat → List Nat → Option String → RefreshIndivResult
  | 0, _, pc, acc, lastErr => .exhausted (refExhaustMsg lastErr) pc acc.reverse
  | fuel + 1, rc, pc, acc, _ =>
    let r := posts pc
    if r.ok then .success (pc + 1) acc.reverse
    else if refRetryable r then
      refreshIndivGo posts maxR fuel (rc + 1) (pc + 1) (2 ^ (rc + 1) :: acc) (some r.text)
    else .failedRefresh (refFailMsg r.text) (pc + 1) acc.reverse

/-- `refresh_individual_pivot_table` (src/core/sharepoint_class.py, lines
552-600), with the k-th POST response given by `posts k`. -/
def refresh_individual_pivot_table (posts : Nat → Resp) (maxR : Nat) : RefreshIndivResult :=
  refreshIndivGo posts maxR maxR 0 0 [] none

example :
    refresh_pivot_table (fun _ => ⟨504, "MaxRequestDurationExceeded body", none⟩)
        (.resp ⟨200, "[]", none⟩) 2
      = .exhausted (refExhaustMsg (some "MaxRequestDurationExceeded body")) 2 [2, 4] 1 := by
  decide

example :
    refresh_pivot_table (fun _ => ⟨429, "Too Many Requests", none⟩)
        (.resp ⟨200, "[]", none⟩) 3
      = .failedRefresh (refFailMsg "Too Many Requests") 1 [] 1 := by decide

/-- The timeout message of `wait_for_file`:
`f"Timeout waiting for file '{file_name}' in '{folder_path}'."`. -/
def waitTimeoutMsg (fileName folderPath : String) : String :=
  "Timeout waiting for file \x27" ++ fileName ++ "\x27 in \x27" ++ folderPath ++ "\x27."

/-- Outcome of a run of `wait_for_file`: the metadata returned on an ok
response, or the timeout exception.  `lookups` counts GET requests issued,
`slept` is the total elapsed sleep time when the run ended. -/
inductive WaitResult (α : Type) where
  | found (v : α) (lookups : Nat) (slept : Nat)
  | timeoutErr (msg : String) (lookups : Nat) (slept : Nat)
deriving DecidableEq, Repr

def WaitResult.isTimeoutErr : WaitResult α → Bool
  | .timeoutErr _ _ _ => true
  | _ => false

def WaitResult.slept : WaitResult α → Nat
  | .found _ _ t => t
  | .timeoutErr _ _ t => t

def WaitResult.message : WaitResult α → String
  | .found _ _ _ => ""
  | .timeoutErr m _ _ => m

/-- The `while time.time() - start_time < timeout` loop of `wait_for_file`.
`lookup calls` is the outcome of the (0-indexed) `calls`-th GET: `some v` when
the response is ok (carrying the parsed metadata), `none` when it is not ok or
the request raised (both fall through to the sleep).  `t` is the elapsed time
since `start_time`; each GET is modelled as instantaneous, so time advances
only by `time.sleep(poll_interval)`.  The recursion is driven by a `fuel`
counter kept ≥ `timeout - t`; since each iteration decreases `timeout - t` by
`interval` (positive, by the spec's PollSpec invariant), fuel running out
coincides exactly with the loop-exit test `¬(t < timeout)`, so the fuel-0
clause repeats the exit branch. -/
def waitGo (lookup : Nat → Option α) (timeout interval : Nat)
    (fileName folderPath : String) : Nat → Nat → Nat → WaitResult α
  | 0, calls, t => .timeoutErr (waitTimeoutMsg fileName folderPath) calls t
  | fuel + 1, calls, t =>
    if t < timeout then
      match lookup calls with
      | some v => .found v (calls + 1) t
      | none => waitGo lookup timeout interval fileName folderPath fuel (calls + 1) (t + interval)
    else .timeoutErr (waitTimeoutMsg fileName folderPath) calls t

/-- `wait_for_file` (src/core/sharepoint_class.py, lines 360-394), started
with elapsed time 0 and fuel `timeout` (sufficient: `timeout - 0 ≤ timeout`). -/
def wait_for_file (lookup : Nat → Option α) (timeout interval : Nat)
    (fileName folderPath : String) : WaitResult α :=
  waitGo lookup timeout interval fileName folderPath timeout 0 0

example :
    wait_for_file (fun n => if n == 2 then some 7 else none) 10 3 "f.xlsx" "out"
      = .found 7 3 6 := by decide

example :
    wait_for_file (fun _ => (none : Option Nat)) 5 3 "f.xlsx" "out"
      = .timeoutErr (waitTimeoutMsg "f.xlsx" "out") 2 6 := by decide

/-- A chunk of a larger range update (spec §3, ChunkDescriptor): the start and
end row indices passed to `update_range_data` and the rows of the slice. -/
structure ChunkDescriptor where
  startIndex : Nat
  endIndex : Nat
  payload : List (List String)
deriving DecidableEq, Repr

/-- Outcome of a run of `update_chunks`: all chunks applied (`ok`, one flag per
chunk), or the job halted (`failed`, carrying the raised message and the
number of chunks whose apply was invoked — chunks at later positions are never
applied). -/
inductive ChunksResult where
  | ok (flags : List Bool)
  | failed (msg : String) (applied : Nat)
deriving DecidableEq, Repr

/-- Modelled from the spec: the chunked-updater caller loop (`update_chunks`,
spec §4.3) is not part of src/ — only the per-chunk apply
(`update_range_data`) is.  Per the spec, chunks are processed strictly in
order, each wrapped independently by the retrying update; a raise from a
chunk's update halts the loop before any later chunk.  `resp i k` is the
response to the k-th attempt for the chunk at position `i`. -/
def chunksGo (resp : Nat → Nat → Resp) (maxR : Nat) :
    Nat → List ChunkDescriptor → List Bool → ChunksResult
  | _, [], acc => .ok acc.reverse
  | i, c :: rest, acc =>
    match update_range_data (resp i) c.startIndex c.endIndex maxR with
    | .success _ _ _ => chunksGo resp maxR (i + 1) rest (true :: acc)
    | .nonRetryable m _ _ => .failed m (i + 1)
    | .exhausted m _ _ => .failed m (i + 1)

/-- Modelled from the spec: see `chunksGo`. -/
def update_chunks (resp : Nat → Nat → Resp) (chunks : List ChunkDescriptor)
    (maxR : Nat) : ChunksResult :=
  chunksGo resp maxR 0 chunks []

example :
    update_chunks
      (fun i _ => if i == 1 then ⟨429, "busy", none⟩ else ⟨200, "", none⟩)
      [⟨0, 500, []⟩, ⟨500, 1000, []⟩, ⟨1000, 1500, []⟩] 2
      = .failed (updExhaustMsg 500 1000 2) 2 := by decide

example :
    update_chunks (fun _ _ => ⟨200, "", none⟩)
      [⟨0, 500, []⟩, ⟨500, 1000, []⟩, ⟨1000, 1500, []⟩] 2
      = .ok [true, true, true] := by decide

/-! ### Helper lemmas -/

theorem strContains_append_of_right (a b c : String) (h : strContains b c = true) :
    strContains (a ++ b) c = true := by
  unfold strContains at h ⊢
  rw [decide_eq_true_iff] at h ⊢
  rw [String.data_append]
  obtain ⟨p, q, hpq⟩ := h
  exact ⟨a.data ++ p, q, by rw [← hpq]; simp⟩

theorem strContains_append_of_left (a b c : String) (h : strContains a c = true) :
    strContains (a ++ b) c = true := by
  unfold strContains at h ⊢
  rw [decide_eq_true_iff] at h ⊢
  rw [String.data_append]
  obtain ⟨p, q, hpq⟩ := h
  exact ⟨p, q ++ b.data, by rw [← hpq]; simp⟩

theorem strContains_append_right (a b : String) : strContains (a ++ b) b = true := by
  unfold strContains
  rw [decide_eq_true_iff, String.data_append]
  exact ⟨a.data, [], by simp⟩

/-- The sleep durations `update_range_data` performs for attempts
`first, first+1, …, first+n-1` when each of those attempts fails retryably. -/
def updWaits (resp : Nat → Resp) : Nat → Nat → List Nat
  | 0, _ => []
  | n + 1, first => hintWait (resp first).retryAfter first :: updWaits resp n (first + 1)

theorem updWaits_eq_range (resp : Nat → Resp) :
    ∀ n first, updWaits resp n first
      = (List.range n).map (fun i => hintWait (resp (first + i)).retryAfter (first + i)) := by
  intro n
  induction n with
  | zero => intro first; simp [updWaits]
  | succ m ih =>
    intro first
    rw [List.range_succ_eq_map, List.map_cons, List.map_map]
    rw [show updWaits resp (m + 1) first
        = hintWait (resp first).retryAfter first :: updWaits resp m (first + 1) from rfl]
    rw [ih (first + 1)]
    refine congrArg₂ List.cons (by rw [Nat.add_zero]) ?_
    refine List.map_congr_left ?_
    intro i _
    simp only [Function.comp_apply]
    have h1 : first + 1 + i = first + Nat.succ i := by omega
    rw [h1]

/-- Characterization of `updateGo` when every remaining response is a
retryable failure: the loop runs out of attempts and raises the exhaustion
message, having issued one PATCH per remaining iteration and slept the
hint-or-exponential duration after each. -/
theorem updateGo_allRetryable (resp : Nat → Resp) (s e maxR : Nat)
    (h : ∀ k, (resp k).ok = false ∧ updRetryable (resp k) = true) :
    ∀ rem attempt acc,
      updateGo resp s e maxR rem attempt acc
        = .exhausted (updExhaustMsg s e maxR) (attempt + rem)
            (acc.reverse ++ updWaits resp rem attempt) := by
  intro rem
  induction rem with
  | zero => intro attempt acc; simp [updateGo, updWaits]
  | succ m ih =>
    intro attempt acc
    rw [updateGo]
    simp only [(h attempt).1, (h attempt).2, Bool.false_eq_true, if_false, if_true]
    rw [ih (attempt + 1) (hintWait (resp attempt).retryAfter attempt :: acc)]
    have hn : attempt + 1 + m = attempt + (m + 1) := by omega
    rw [hn]
    simp only [updWaits, List.reverse_cons, List.append_assoc, List.singleton_append]

/-- Characterization of `updateGo` when the next response is ok: the loop
returns `True` at once. -/
theorem updateGo_firstOk (resp : Nat → Resp) (s e maxR : Nat) (rem attempt : Nat)
    (acc : List Nat) (hok : (resp attempt).ok = true) :
    updateGo resp s e maxR (rem + 1) attempt acc = .success true (attempt + 1) acc.reverse := by
  rw [updateGo]
  simp only [hok, if_true]

/-- Characterization of `updateGo` when the next response is a non-retryable
failure: the loop raises at once, with the body in the message. -/
theorem updateGo_firstNonRetryable (resp : Nat → Resp) (s e maxR : Nat) (rem attempt : Nat)
    (acc : List Nat) (hok : (resp attempt).ok = false)
    (hnr : updRetryable (resp attempt) = false) :
    updateGo resp s e maxR (rem + 1) attempt acc
      = .nonRetryable (updFailMsg s e (resp attempt).text) (attempt + 1) acc.reverse := by
  rw [updateGo]
  simp only [hok, hnr, Bool.false_eq_true, if_false]

/-- Every run of `updateGo` either returns `True`, or raises. -/
theorem updateGo_neverFalse (resp : Nat → Resp) (s e maxR : Nat) :
    ∀ rem attempt acc, (updateGo resp s e maxR rem attempt acc).neverFalse = true := by
  intro rem
  induction rem with
  | zero => intro attempt acc; rfl
  | succ m ih =>
    intro attempt acc
    rw [updateGo]
    by_cases hok : (resp attempt).ok = true
    · simp only [hok, if_true]; rfl
    · rw [Bool.not_eq_true] at hok
      simp only [hok, Bool.false_eq_true, if_false]
      by_cases hr : updRetryable (resp attempt) = true
      · simp only [hr, if_true]
        exact ih (attempt + 1) _
      · rw [Bool.not_eq_true] at hr
        simp only [hr, Bool.false_eq_true, if_false]
        rfl

/-- The sleep durations the refresh loops perform when `retry_count` starts at
`rc` and the next `n` responses all fail retryably: `2 ^ (rc+1), 2 ^ (rc+2), …`. -/
def refWaits : Nat → Nat → List Nat
  | 0, _ => []
  | n + 1, rc => 2 ^ (rc + 1) :: refWaits n (rc + 1)

theorem refWaits_eq_range :
    ∀ n rc, refWaits n rc = (List.range n).map (fun i => 2 ^ (rc + i + 1)) := by
  intro n
  induction n with
  | zero => intro rc; simp [refWaits]
  | succ m ih =>
    intro rc
    rw [List.range_succ_eq_map, List.map_cons, List.map_map]
    rw [show refWaits (m + 1) rc = 2 ^ (rc + 1) :: refWaits m (rc + 1) from rfl]
    rw [ih (rc + 1)]
    refine congrArg₂ List.cons (by rw [Nat.add_zero]) ?_
    refine List.map_congr_left ?_
    intro i _
    simp only [Function.comp_apply]
    have h1 : rc + 1 + i + 1 = rc + Nat.succ i + 1 := by omega
    rw [h1]

/-- The value of `last_refresh_error` after `fuel` further retryable failures,
when the next POST is the `pc`-th and its current value is `le`. -/
def lastAfter (posts : Nat → Resp) (fuel pc : Nat) (le : Option String) : Option String :=
  match fuel with
  | 0 => le
  | f + 1 => some (posts (pc + f)).text

/-- Characterization of `refreshGo` when every remaining POST response is a
retryable failure and the diagnostic GET returns a response: the loop runs out
of retries, performs the post-loop diagnostic GET, and raises the exhaustion
message carrying the last observed body. -/
theorem refreshGo_allRetryable (posts : Nat → Resp) (d : Resp) (maxR : Nat)
    (h : ∀ k, (posts k).ok = false ∧ refRetryable (posts k) = true) :
    ∀ fuel rc pc acc le,
      refreshGo posts (.resp d) maxR fuel rc pc acc le
        = .exhausted (refExhaustMsg (lastAfter posts fuel pc le)) (pc + fuel)
            (acc.reverse ++ refWaits fuel rc) 1 := by
  intro fuel
  induction fuel with
  | zero => intro rc pc acc le; simp [refreshGo, refWaits, lastAfter]
  | succ m ih =>
    intro rc pc acc le
    rw [refreshGo]
    simp only [(h pc).1, (h pc).2, Bool.false_eq_true, if_false, if_true]
    rw [ih (rc + 1) (pc + 1) (2 ^ (rc + 1) :: acc) (some (posts pc).text)]
    have hn : pc + 1 + m = pc + (m + 1) := by omega
    rw [hn]
    have hl : lastAfter posts m (pc + 1) (some (posts pc).text)
        = lastAfter posts (m + 1) pc le := by
      cases m with
      | zero => simp [lastAfter]
      | succ j =>
        simp only [lastAfter]
        have : pc + 1 + j = pc + (j + 1) := by omega
        rw [this]
    rw [hl]
    simp only [refWaits, List.reverse_cons, List.append_assoc, List.singleton_append]

theorem update_range_data_allRetryable (resp : Nat → Resp) (s e maxR : Nat)
    (h : ∀ k, (resp k).ok = false ∧ updRetryable (resp k) = true) :
    update_range_data resp s e maxR
      = .exhausted (updExhaustMsg s e maxR) maxR (updWaits resp maxR 0) := by
  unfold update_range_data
  rw [updateGo_allRetryable resp s e maxR h maxR 0 []]
  simp

theorem update_range_data_firstOk (resp : Nat → Resp) (s e M : Nat)
    (hok : (resp 0).ok = true) :
    update_range_data resp s e (M + 1) = .success true 1 [] := by
  unfold update_range_data
  rw [updateGo_firstOk resp s e (M + 1) M 0 [] hok]
  rfl

theorem update_range_data_firstNonRetryable (resp : Nat → Resp) (s e M : Nat)
    (hok : (resp 0).ok = false) (hnr : updRetryable (resp 0) = false) :
    update_range_data resp s e (M + 1)
      = .nonRetryable (updFailMsg s e (resp 0).text) 1 [] := by
  unfold update_range_data
  rw [updateGo_firstNonRetryable resp s e (M + 1) M 0 [] hok hnr]
  rfl

/-- Characterization of `refreshGo` when the next POST response is a
non-retryable failure: one diagnostic GET is attempted; if it returns a
response the original message is raised, if it itself raises, its exception
propagates. -/
theorem refreshGo_firstNonRetryable_resp (posts : Nat → Resp) (d : Resp) (maxR : Nat)
    (fuel rc pc : Nat) (acc : List Nat) (le : Option String)
    (hok : (posts pc).ok = false) (hnr : refRetryable (posts pc) = false) :
    refreshGo posts (.resp d) maxR (fuel + 1) rc pc acc le
      = .failedRefresh (refFailMsg (posts pc).text) (pc + 1) acc.reverse 1 := by
  rw [refreshGo]
  simp only [hok, hnr, Bool.false_eq_true, if_false]

theorem refreshGo_firstNonRetryable_raised (posts : Nat → Resp) (m : String) (maxR : Nat)
    (fuel rc pc : Nat) (acc : List Nat) (le : Option String)
    (hok : (posts pc).ok = false) (hnr : refRetryable (posts pc) = false) :
    refreshGo posts (.raised m) maxR (fuel + 1) rc pc acc le
      = .diagRaised m (pc + 1) acc.reverse 1 := by
  rw [refreshGo]
  simp only [hok, hnr, Bool.false_eq_true, if_false]

/-- Characterization of `refreshIndivGo` when every remaining POST response is
a retryable failure. -/
theorem refreshIndivGo_allRetryable (posts : Nat → Resp) (maxR : Nat)
    (h : ∀ k, (posts k).ok = false ∧ refRetryable (posts k) = true) :
    ∀ fuel rc pc acc le,
      refreshIndivGo posts maxR fuel rc pc acc le
        = .exhausted (refExhaustMsg (lastAfter posts fuel pc le)) (pc + fuel)
            (acc.reverse ++ refWaits fuel rc) := by
  intro fuel
  induction fuel with
  | zero => intro rc pc acc le; simp [refreshIndivGo, refWaits, lastAfter]
  | succ m ih =>
    intro rc pc acc le
    rw [refreshIndivGo]
    simp only [(h pc).1, (h pc).2, Bool.false_eq_true, if_false, if_true]
    rw [ih (rc + 1) (pc + 1) (2 ^ (rc + 1) :: acc) (some (posts pc).text)]
    have hn : pc + 1 + m = pc + (m + 1) := by omega
    rw [hn]
    have hl : lastAfter posts m (pc + 1) (some (posts pc).text)
        = lastAfter posts (m + 1) pc le := by
      cases m with
      | zero => simp [lastAfter]
      | succ j =>
        simp only [lastAfter]
        have : pc + 1 + j = pc + (j + 1) := by omega
        rw [this]
    rw [hl]
    simp only [refWaits, List.reverse_cons, List.append_assoc, List.singleton_append]


theorem refresh_pivot_table_allRetryable (posts : Nat → Resp) (d : Resp) (maxR : Nat)
    (h : ∀ k, (posts k).ok = false ∧ refRetryable (posts k) = true) :
    refresh_pivot_table posts (.resp d) maxR
      = .exhausted (refExhaustMsg (lastAfter posts maxR 0 none)) maxR (refWaits maxR 0) 1 := by
  unfold refresh_pivot_table
  rw [refreshGo_allRetryable posts d maxR h maxR 0 0 [] none]
  simp

theorem refresh_pivot_table_firstNonRetryable_resp (posts : Nat → Resp) (d : Resp) (M : Nat)
    (hok : (posts 0).ok = false) (hnr : refRetryable (posts 0) = false) :
    refresh_pivot_table posts (.resp d) (M + 1)
      = .failedRefresh (refFailMsg (posts 0).text) 1 [] 1 := by
  unfold refresh_pivot_table
  rw [refreshGo_firstNonRetryable_resp posts d (M + 1) M 0 0 [] none hok hnr]
  rfl

theorem refresh_pivot_table_firstNonRetryable_raised (posts : Nat → Resp) (m : String)
    (M : Nat) (hok : (posts 0).ok = false) (hnr : refRetryable (posts 0) = false) :
    refresh_pivot_table posts (.raised m) (M + 1) = .diagRaised m 1 [] 1 := by
  unfold refresh_pivot_table
  rw [refreshGo_firstNonRetryable_raised posts m (M + 1) M 0 0 [] none hok hnr]
  rfl

theorem refresh_individual_pivot_table_allRetryable (posts : Nat → Resp) (maxR : Nat)
    (h : ∀ k, (posts k).ok = false ∧ refRetryable (posts k) = true) :
    refresh_individual_pivot_table posts maxR
      = .exhausted (refExhaustMsg (lastAfter posts maxR 0 none)) maxR (refWaits maxR 0) := by
  unfold refresh_individual_pivot_table
  rw [refreshIndivGo_allRetryable posts maxR h maxR 0 0 [] none]
  simp

/-- Characterization of `waitGo` when the first `k` lookups are absent and the
`k`-th returns a value: the poller returns that value right after the `k`-th
GET, having made `k + 1` GETs and slept `k` poll intervals, with no wait after
the successful lookup. -/
theorem waitGo_found (lookup : Nat → Option α) (timeout interval : Nat)
    (fn fp : String) (v : α) :
    ∀ k fuel calls t, (∀ j, j < k → lookup (calls + j) = none) →
      lookup (calls + k) = some v → t + k * interval < timeout → k < fuel →
      waitGo lookup timeout interval fn fp fuel calls t
        = .found v (calls + k + 1) (t + k * interval) := by
  intro k
  induction k with
  | zero =>
    intro fuel calls t _ hfound hlt hfuel
    obtain ⟨f, rfl⟩ : ∃ f, fuel = f + 1 := ⟨fuel - 1, by omega⟩
    rw [waitGo]
    rw [Nat.add_zero] at hfound
    simp only [Nat.zero_mul, Nat.add_zero] at hlt
    simp only [hlt, if_true, hfound]
    simp
  | succ m ih =>
    intro fuel calls t habsent hfound hlt hfuel
    obtain ⟨f, rfl⟩ : ∃ f, fuel = f + 1 := ⟨fuel - 1, by omega⟩
    rw [waitGo]
    have ht : t < timeout := by
      have : t ≤ t + (m + 1) * interval := Nat.le_add_right _ _
      omega
    simp only [ht, if_true]
    have h0 : lookup calls = none := by
      have := habsent 0 (by omega)
      rwa [Nat.add_zero] at this
    rw [h0]
    have e1 : t + interval + m * interval = t + (m + 1) * interval := by ring
    have e2 : calls + 1 + m = calls + (m + 1) := by omega
    rw [ih f (calls + 1) (t + interval)
      (fun j hj => by
        have := habsent (j + 1) (by omega)
        have e3 : calls + (j + 1) = calls + 1 + j := by omega
        rwa [e3] at this)
      (by rwa [e2])
      (by rwa [e1])
      (by omega)]
    rw [e1, e2]

/-- Characterization of `waitGo` when no lookup ever returns a value: with a
positive poll interval and enough fuel (`timeout - t ≤ fuel`, which the
top-level call satisfies), the run ends in the timeout error, the elapsed time
at the raise is at least `timeout`, and the message is the timeout message. -/
theorem waitGo_neverFound (lookup : Nat → Option α) (timeout interval : Nat)
    (fn fp : String) (hI : 0 < interval) (hnever : ∀ j, lookup j = none) :
    ∀ fuel calls t, timeout - t ≤ fuel →
      (waitGo lookup timeout interval fn fp fuel calls t).isTimeoutErr = true ∧
      timeout ≤ (waitGo lookup timeout interval fn fp fuel calls t).slept ∧
      (waitGo lookup timeout interval fn fp fuel calls t).message = waitTimeoutMsg fn fp := by
  intro fuel
  induction fuel with
  | zero =>
    intro calls t hle
    refine ⟨rfl, ?_, rfl⟩
    show timeout ≤ t
    omega
  | succ f ih =>
    intro calls t hle
    rw [waitGo]
    by_cases ht : t < timeout
    · simp only [ht, if_true, hnever calls]
      exact ih (calls + 1) (t + interval) (by omega)
    · simp only [ht, if_false]
      refine ⟨rfl, ?_, rfl⟩
      show timeout ≤ t
      omega

/-! ### Claims -/

/-- Claim C1: for every `max_retries = N` (N ≥ 1), a call that always reports a
retryable failure is attempted exactly N times and then fails with the
retries-exhausted error: `update_range_data` issues exactly N PATCH requests
and raises its exhaustion message when every response is non-ok and retryable,
and `refresh_pivot_table` issues exactly N POST requests and raises its
max-retries message when every response is non-ok with a
MaxRequestDurationExceeded body (the post-loop diagnostic GET returning a
response). -/
theorem c1_always_retryable_exhausts (N s e : Nat) (hN : 1 ≤ N)
    (resp posts : Nat → Resp) (d : Resp)
    (hu : ∀ k, (resp k).ok = false ∧ updRetryable (resp k) = true)
    (hr : ∀ k, (posts k).ok = false ∧ refRetryable (posts k) = true) :
    (update_range_data resp s e N).patches = N ∧
    (update_range_data resp s e N).isExhausted = true ∧
    (refresh_pivot_table posts (.resp d) N).posts = N ∧
    (refresh_pivot_table posts (.resp d) N).isExhausted = true := by
  rw [update_range_data_allRetryable resp s e N hu,
    refresh_pivot_table_allRetryable posts d N hr]
  exact ⟨rfl, rfl, rfl, rfl⟩

theorem c1_witness :
    (update_range_data (fun _ => ⟨429, "slow", none⟩) 0 10 2).patches = 2 ∧
    (update_range_data (fun _ => ⟨429, "slow", none⟩) 0 10 2).isExhausted = true ∧
    (refresh_pivot_table (fun _ => ⟨504, "MaxRequestDurationExceeded", none⟩)
        (.resp ⟨200, "[]", none⟩) 2).posts = 2 ∧
    (refresh_pivot_table (fun _ => ⟨504, "MaxRequestDurationExceeded", none⟩)
        (.resp ⟨200, "[]", none⟩) 2).isExhausted = true :=
  c1_always_retryable_exhausts 2 0 10 (by decide)
    (fun _ => ⟨429, "slow", none⟩)
    (fun _ => ⟨504, "MaxRequestDurationExceeded", none⟩)
    ⟨200, "[]", none⟩
    (fun _ => ⟨rfl, rfl⟩)
    (fun _ => ⟨rfl, rfl⟩)

/-- Claim C2: the wait before the next attempt after a retryable failure on
0-indexed attempt k follows the hint-or-exponential rule.  In
`update_range_data` it is the Retry-After hint when present and parsing as a
non-negative (all-digit) integer — a hint of "0" giving zero wait, a malformed
hint falling back — and `2 ^ k` otherwise.  The refresh loops consult no hint
and sleep `2 ^ (k + 1)` (base 2 exponential: they compute `2 ** retry_count`
after incrementing it). -/
theorem c2_backoff_waits (N s e : Nat)
    (resp posts posts2 : Nat → Resp) (d : Resp)
    (hu : ∀ k, (resp k).ok = false ∧ updRetryable (resp k) = true)
    (hr : ∀ k, (posts k).ok = false ∧ refRetryable (posts k) = true)
    (hr2 : ∀ k, (posts2 k).ok = false ∧ refRetryable (posts2 k) = true) :
    (update_range_data resp s e N).waits
      = (List.range N).map (fun k => hintWait (resp k).retryAfter k) ∧
    (∀ str k, isDigitStr str = true → hintWait (some str) k = digitsToNat str.data) ∧
    (∀ str k, isDigitStr str = false → hintWait (some str) k = 2 ^ k) ∧
    (∀ k, hintWait (some "0") k = 0) ∧
    (∀ k, hintWait none k = 2 ^ k) ∧
    (refresh_pivot_table posts (.resp d) N).waits
      = (List.range N).map (fun k => 2 ^ (k + 1)) ∧
    (refresh_individual_pivot_table posts2 N).waits
      = (List.range N).map (fun k => 2 ^ (k + 1)) := by
  refine ⟨?_, ?_, ?_, fun k => rfl, fun k => rfl, ?_, ?_⟩
  · rw [update_range_data_allRetryable resp s e N hu]
    show updWaits resp N 0 = _
    rw [updWaits_eq_range resp N 0]
    simp
  · intro str k h
    simp [hintWait, h]
  · intro str k h
    simp [hintWait, h]
  · rw [refresh_pivot_table_allRetryable posts d N hr]
    show refWaits N 0 = _
    rw [refWaits_eq_range N 0]
    simp
  · rw [refresh_individual_pivot_table_allRetryable posts2 N hr2]
    show refWaits N 0 = _
    rw [refWaits_eq_range N 0]
    simp

theorem c2_witness :
    (update_range_data (fun k => ⟨429, "busy", some (if k == 0 then "7" else "x")⟩)
        0 9 2).waits = [7, 2] ∧
    hintWait (some "0") 3 = 0 ∧
    hintWait (some "nope") 3 = 8 ∧
    hintWait none 4 = 16 ∧
    (refresh_pivot_table (fun _ => ⟨504, "MaxRequestDurationExceeded", none⟩)
        (.resp ⟨200, "[]", none⟩) 2).waits = [2, 4] ∧
    (refresh_individual_pivot_table
        (fun _ => ⟨504, "MaxRequestDurationExceeded", none⟩) 2).waits = [2, 4] := by
  obtain ⟨h1, h2, h3, h4, h5, h6, h7⟩ :=
    c2_backoff_waits 2 0 9
      (fun k => ⟨429, "busy", some (if k == 0 then "7" else "x")⟩)
      (fun _ => ⟨504, "MaxRequestDurationExceeded", none⟩)
      (fun _ => ⟨504, "MaxRequestDurationExceeded", none⟩)
      ⟨200, "[]", none⟩
      (fun _ => ⟨rfl, rfl⟩)
      (fun _ => ⟨rfl, rfl⟩)
      (fun _ => ⟨rfl, rfl⟩)
  exact ⟨by rw [h1]; decide, h4 3, by rw [h3 "nope" 3 (by decide)]; decide,
    by rw [h5 4]; decide, by rw [h6]; decide, by rw [h7]; decide⟩

/-- Claim C9: calling `update_range_data` with `max_retries = 0` runs the loop
body zero times: no PATCH request is issued and the exhaustion error is raised
immediately. -/
theorem c9_zero_retries_no_request (resp : Nat → Resp) (s e : Nat) :
    update_range_data resp s e 0 = .exhausted (updExhaustMsg s e 0) 0 [] := rfl

/-- Claim C10: `update_range_data` never returns False: every run either
returns True from the success branch or raises; its only return statement is
`return True`. -/
theorem c10_never_returns_false (resp : Nat → Resp) (s e maxR : Nat) :
    (update_range_data resp s e maxR).neverFalse = true :=
  updateGo_neverFalse resp s e maxR maxR 0 []

/-- Claim C3 counterexample: the claim says the retryable predicate treats
HTTP 429 as retryable and that this applies to `refresh_pivot_table`'s retry
loop; but `refresh_pivot_table` retries only on bodies containing
MaxRequestDurationExceeded, so a plain 429 response makes it raise immediately
after one POST even with `max_retries = 3` — and the raised message carries
the body but not the status code. -/
theorem c3_counterexample :
    refresh_pivot_table (fun _ => ⟨429, "Too Many Requests", none⟩)
        (.resp ⟨200, "[]", none⟩) 3
      = .failedRefresh (refFailMsg "Too Many Requests") 1 [] 1 ∧
    refRetryable ⟨429, "Too Many Requests", none⟩ = false ∧
    updRetryable ⟨429, "Too Many Requests", none⟩ = true ∧
    strContains (refFailMsg "Too Many Requests") "429" = false := by decide

/-- Claim C3, amended: `update_range_data` classifies HTTP 429 or a body
containing MaxRequestDurationExceeded as retryable, while
`refresh_pivot_table`'s loop classifies only a body containing
MaxRequestDurationExceeded as retryable (a plain 429 is non-retryable there);
any other 4xx (not 429, no marker in the body) is non-retryable for both, and
a non-retryable response makes both functions fail immediately after exactly
one attempt, regardless of `max_retries`, with an error carrying the response
body (not the status code). -/
theorem c3_amended_classification (N s e : Nat) (hN : 1 ≤ N)
    (resp posts : Nat → Resp) (d : Resp)
    (hu0 : (resp 0).ok = false) (hu1 : updRetryable (resp 0) = false)
    (hp0 : (posts 0).ok = false) (hp1 : refRetryable (posts 0) = false) :
    (∀ r : Resp, r.status = 429 → updRetryable r = true) ∧
    (∀ r : Resp, strContains r.text maxDurationMarker = true →
      updRetryable r = true ∧ refRetryable r = true) ∧
    (∀ r : Resp, 400 ≤ r.status → r.status < 500 → r.status ≠ 429 →
      strContains r.text maxDurationMarker = false →
      updRetryable r = false ∧ refRetryable r = false) ∧
    (∀ r : Resp, r.status = 429 → strContains r.text maxDurationMarker = false →
      refRetryable r = false) ∧
    update_range_data resp s e N = .nonRetryable (updFailMsg s e (resp 0).text) 1 [] ∧
    strContains (updFailMsg s e (resp 0).text) ((resp 0).text) = true ∧
    refresh_pivot_table posts (.resp d) N
      = .failedRefresh (refFailMsg (posts 0).text) 1 [] 1 ∧
    strContains (refFailMsg (posts 0).text) ((posts 0).text) = true := by
  obtain ⟨M, rfl⟩ : ∃ M, N = M + 1 := ⟨N - 1, by omega⟩
  refine ⟨?_, ?_, ?_, ?_, ?_, ?_, ?_, ?_⟩
  · intro r hr
    simp [updRetryable, hr]
  · intro r hr
    constructor
    · simp [updRetryable, hr]
    · simp [refRetryable, hr]
  · intro r h4a h4b hne hmm
    constructor
    · have hb : (r.status == 429) = false := by
        simp only [beq_eq_false_iff_ne, ne_eq]
        exact hne
      simp [updRetryable, hb, hmm]
    · simp [refRetryable, hmm]
  · intro r _ hmm
    simp [refRetryable, hmm]
  · exact update_range_data_firstNonRetryable resp s e M hu0 hu1
  · exact strContains_append_right _ _
  · exact refresh_pivot_table_firstNonRetryable_resp posts d M hp0 hp1
  · exact strContains_append_right _ _

theorem c3_witness :
    updRetryable ⟨429, "rate limited", none⟩ = true ∧
    update_range_data (fun _ => ⟨404, "item not found", none⟩) 3 9 5
      = .nonRetryable (updFailMsg 3 9 "item not found") 1 [] ∧
    refresh_pivot_table (fun _ => ⟨404, "item not found", none⟩)
        (.resp ⟨503, "oops", none⟩) 5
      = .failedRefresh (refFailMsg "item not found") 1 [] 1 := by
  obtain ⟨h1, _, _, _, h5, _, h7, _⟩ :=
    c3_amended_classification 5 3 9 (by decide)
      (fun _ => ⟨404, "item not found", none⟩)
      (fun _ => ⟨404, "item not found", none⟩)
      ⟨503, "oops", none⟩ rfl rfl rfl rfl
  exact ⟨h1 ⟨429, "rate limited", none⟩ rfl, h5, h7⟩

/-- Claim C4: when a lookup returns a present value, `wait_for_file` returns
that value immediately — no sleep follows the successful GET and no further
GET is made: if the first `k` lookups are absent and the `k`-th is present
(reached before the deadline, with a positive poll interval), the run returns
the value having made exactly `k + 1` lookups and slept exactly
`k * poll_interval` (all of it before the successful lookup).  In particular,
with `timeout = 10`, `poll_interval = 3` and a lookup first present on the 3rd
call, it returns after exactly 3 lookups. -/
theorem c4_poller_returns_immediately (α : Type) (lookup : Nat → Option α) (v : α)
    (timeout interval k : Nat) (hI : 0 < interval) (fn fp : String)
    (habsent : ∀ j, j < k → lookup j = none) (hfound : lookup k = some v)
    (hreach : k * interval < timeout) :
    wait_for_file lookup timeout interval fn fp = .found v (k + 1) (k * interval) := by
  unfold wait_for_file
  have h := waitGo_found lookup timeout interval fn fp v k timeout 0 0
    (fun j hj => by simpa using habsent j hj)
    (by simpa using hfound)
    (by omega)
    (by
      have : k ≤ k * interval := Nat.le_mul_of_pos_right k hI
      omega)
  simpa using h

theorem c4_witness :
    wait_for_file (fun n => if n == 2 then some 42 else none) 10 3 "report.xlsx" "out"
      = .found 42 3 6 :=
  c4_poller_returns_immediately Nat (fun n => if n == 2 then some 42 else none) 42
    10 3 2 (by decide) "report.xlsx" "out"
    (fun j hj => by
      match j, hj with
      | 0, _ => rfl
      | 1, _ => rfl)
    rfl (by decide)

/-- Claim C5: `wait_for_file` compares elapsed time against `timeout` measured
from the single recorded start time, never reset per iteration: with a
positive poll interval and a lookup that never returns present, the run ends
in the timeout error only once the elapsed time since the start is at least
`timeout`, and the raised message carries the awaited file name and folder
path. -/
theorem c5_timeout_after_deadline (α : Type) (lookup : Nat → Option α)
    (timeout interval : Nat) (hI : 0 < interval) (fn fp : String)
    (hnever : ∀ j, lookup j = none) :
    (wait_for_file lookup timeout interval fn fp).isTimeoutErr = true ∧
    timeout ≤ (wait_for_file lookup timeout interval fn fp).slept ∧
    (wait_for_file lookup timeout interval fn fp).message = waitTimeoutMsg fn fp ∧
    strContains (waitTimeoutMsg fn fp) fn = true ∧
    strContains (waitTimeoutMsg fn fp) fp = true := by
  obtain ⟨h1, h2, h3⟩ := waitGo_neverFound lookup timeout interval fn fp hI hnever
    timeout 0 0 (by omega)
  refine ⟨h1, h2, h3, ?_, ?_⟩
  · unfold waitTimeoutMsg
    apply strContains_append_of_left
    apply strContains_append_of_left
    apply strContains_append_of_left
    exact strContains_append_right _ _
  · unfold waitTimeoutMsg
    apply strContains_append_of_left
    exact strContains_append_right _ _

theorem c5_witness :
    (wait_for_file (fun _ => (none : Option Nat)) 5 3 "report.xlsx" "out").isTimeoutErr
      = true ∧
    5 ≤ (wait_for_file (fun _ => (none : Option Nat)) 5 3 "report.xlsx" "out").slept ∧
    (wait_for_file (fun _ => (none : Option Nat)) 5 3 "report.xlsx" "out").message
      = waitTimeoutMsg "report.xlsx" "out" ∧
    strContains (waitTimeoutMsg "report.xlsx" "out") "report.xlsx" = true ∧
    strContains (waitTimeoutMsg "report.xlsx" "out") "out" = true :=
  c5_timeout_after_deadline Nat (fun _ => none) 5 3 (by decide) "report.xlsx" "out"
    (fun _ => rfl)

/-- Claim C6 counterexample: the claim says the exhaustion failure carries the
last observed status/body for `update_range_data` too; but its exhaustion
message is a fixed function of the row range and attempt count — on a run
whose every response has status 429 and body "ERRBODY", the raised message
contains neither that body nor the status. -/
theorem c6_counterexample :
    update_range_data (fun _ => ⟨429, "ERRBODY", none⟩) 0 5 2
      = .exhausted (updExhaustMsg 0 5 2) 2 [1, 2] ∧
    strContains (updExhaustMsg 0 5 2) "ERRBODY" = false ∧
    strContains (updExhaustMsg 0 5 2) "429" = false := by decide

/-- Claim C6, amended: after exhausting all attempts, `refresh_pivot_table`
raises an error carrying the last observed response body (not the status),
while `update_range_data` raises an error carrying only the row range and the
attempt count (`updExhaustMsg s e N`, a function of those three values alone),
not the last observed status or body. -/
theorem c6_amended_exhaustion_payload (N s e : Nat) (hN : 1 ≤ N)
    (resp posts : Nat → Resp) (d : Resp)
    (hu : ∀ k, (resp k).ok = false ∧ updRetryable (resp k) = true)
    (hr : ∀ k, (posts k).ok = false ∧ refRetryable (posts k) = true) :
    (update_range_data resp s e N).isExhausted = true ∧
    (update_range_data resp s e N).message = updExhaustMsg s e N ∧
    strContains (updExhaustMsg s e N) (toString (s + 1)) = true ∧
    strContains (updExhaustMsg s e N) (toString e) = true ∧
    strContains (updExhaustMsg s e N) (toString N) = true ∧
    (refresh_pivot_table posts (.resp d) N).isExhausted = true ∧
    strContains ((refresh_pivot_table posts (.resp d) N).message)
      ((posts (N - 1)).text) = true := by
  obtain ⟨M, rfl⟩ : ∃ M, N = M + 1 := ⟨N - 1, by omega⟩
  rw [update_range_data_allRetryable resp s e (M + 1) hu,
    refresh_pivot_table_allRetryable posts d (M + 1) hr]
  refine ⟨rfl, rfl, ?_, ?_, ?_, rfl, ?_⟩
  · unfold updExhaustMsg
    apply strContains_append_of_left
    apply strContains_append_of_left
    apply strContains_append_of_left
    apply strContains_append_of_left
    apply strContains_append_of_left
    exact strContains_append_right _ _
  · unfold updExhaustMsg
    apply strContains_append_of_left
    apply strContains_append_of_left
    apply strContains_append_of_left
    exact strContains_append_right _ _
  · unfold updExhaustMsg
    apply strContains_append_of_left
    exact strContains_append_right _ _
  · show strContains (refExhaustMsg (lastAfter posts (M + 1) 0 none))
      ((posts (M + 1 - 1)).text) = true
    have hl : lastAfter posts (M + 1) 0 none = some (posts M).text := by
      show some (posts (0 + M)).text = some (posts M).text
      rw [Nat.zero_add]
    rw [hl]
    show strContains (_ ++ (posts M).text) ((posts (M + 1 - 1)).text) = true
    have hm : M + 1 - 1 = M := by omega
    rw [hm]
    exact strContains_append_right _ _

theorem c6_witness :
    (update_range_data (fun _ => ⟨429, "ERRBODY", none⟩) 0 5 2).message
      = updExhaustMsg 0 5 2 ∧
    strContains (updExhaustMsg 0 5 2) "2" = true ∧
    strContains
      ((refresh_pivot_table (fun _ => ⟨504, "the MaxRequestDurationExceeded body", none⟩)
          (.resp ⟨200, "[]", none⟩) 2).message)
      "the MaxRequestDurationExceeded body" = true := by
  obtain ⟨_, h2, _, _, h5, _, h7⟩ :=
    c6_amended_exhaustion_payload 2 0 5 (by decide)
      (fun _ => ⟨429, "ERRBODY", none⟩)
      (fun _ => ⟨504, "the MaxRequestDurationExceeded body", none⟩)
      ⟨200, "[]", none⟩
      (fun _ => ⟨rfl, rfl⟩)
      (fun _ => ⟨rfl, rfl⟩)
  exact ⟨h2, h5, h7⟩

/-- Characterization of `chunksGo`: when the first `pre.length` chunks succeed
on their first attempt and the next chunk always fails retryably, the job
halts at that chunk with the exhaustion message, having applied exactly the
chunks up to and including it. -/
theorem chunksGo_prefix_ok_then_exhaust (resp : Nat → Nat → Resp) (M : Nat)
    (cf : ChunkDescriptor) (rest : List ChunkDescriptor) :
    ∀ (pre : List ChunkDescriptor) (i : Nat) (acc : List Bool),
      (∀ j, j < pre.length → (resp (i + j) 0).ok = true) →
      (∀ k, (resp (i + pre.length) k).ok = false ∧
        updRetryable (resp (i + pre.length) k) = true) →
      chunksGo resp (M + 1) i (pre ++ cf :: rest) acc
        = .failed (updExhaustMsg cf.startIndex cf.endIndex (M + 1)) (i + pre.length + 1) := by
  intro pre
  induction pre with
  | nil =>
    intro i acc _ hfail
    rw [List.nil_append, chunksGo]
    rw [update_range_data_allRetryable (resp i) cf.startIndex cf.endIndex (M + 1)
      (fun k => by simpa using hfail k)]
    rfl
  | cons c pre ih =>
    intro i acc hok hfail
    rw [List.cons_append, chunksGo]
    rw [update_range_data_firstOk (resp i) c.startIndex c.endIndex M
      (by simpa using hok 0 (by simp))]
    show chunksGo resp (M + 1) (i + 1) (pre ++ cf :: rest) (true :: acc) = _
    rw [ih (i + 1) (true :: acc)
      (fun j hj => by
        have := hok (j + 1) (by simpa using Nat.succ_lt_succ hj)
        have e3 : i + (j + 1) = i + 1 + j := by omega
        rwa [e3] at this)
      (fun k => by
        have := hfail k
        have e4 : i + (c :: pre).length = i + 1 + pre.length := by simp; omega
        rwa [e4] at this)]
    have e5 : i + 1 + pre.length + 1 = i + (c :: pre).length + 1 := by simp; omega
    rw [e5]

/-- Claim C7 (spec-modelled caller loop): chunks are applied strictly in
order with independent retry budgets; when the chunks before position `p`
succeed at once and the chunk at position `p` always fails retryably, the job
fails with that chunk's exhaustion error — which names its start and end row
indices — and the number of chunks whose apply was invoked is exactly `p + 1`:
no later chunk's apply is ever invoked. -/
theorem c7_chunk_failure_halts (resp : Nat → Nat → Resp) (maxR : Nat) (hm : 1 ≤ maxR)
    (pre : List ChunkDescriptor) (cf : ChunkDescriptor) (rest : List ChunkDescriptor)
    (hok : ∀ j, j < pre.length → (resp j 0).ok = true)
    (hfail : ∀ k, (resp pre.length k).ok = false ∧ updRetryable (resp pre.length k) = true) :
    update_chunks resp (pre ++ cf :: rest) maxR
      = .failed (updExhaustMsg cf.startIndex cf.endIndex maxR) (pre.length + 1) ∧
    strContains (updExhaustMsg cf.startIndex cf.endIndex maxR)
      (toString (cf.startIndex + 1)) = true ∧
    strContains (updExhaustMsg cf.startIndex cf.endIndex maxR)
      (toString cf.endIndex) = true := by
  obtain ⟨M, rfl⟩ : ∃ M, maxR = M + 1 := ⟨maxR - 1, by omega⟩
  refine ⟨?_, ?_, ?_⟩
  · unfold update_chunks
    have h := chunksGo_prefix_ok_then_exhaust resp M cf rest pre 0 []
      (fun j hj => by simpa using hok j hj)
      (fun k => by simpa using hfail k)
    simpa using h
  · unfold updExhaustMsg
    apply strContains_append_of_left
    apply strContains_append_of_left
    apply strContains_append_of_left
    apply strContains_append_of_left
    apply strContains_append_of_left
    exact strContains_append_right _ _
  · unfold updExhaustMsg
    apply strContains_append_of_left
    apply strContains_append_of_left
    apply strContains_append_of_left
    exact strContains_append_right _ _

theorem c7_witness :
    update_chunks
      (fun i _ => if i == 1 then ⟨429, "busy", none⟩ else ⟨200, "", none⟩)
      [⟨0, 500, []⟩, ⟨500, 1000, []⟩, ⟨1000, 1500, []⟩] 2
      = .failed (updExhaustMsg 500 1000 2) 2 ∧
    strContains (updExhaustMsg 500 1000 2) "501" = true ∧
    strContains (updExhaustMsg 500 1000 2) "1000" = true := by
  obtain ⟨h1, h2, h3⟩ :=
    c7_chunk_failure_halts
      (fun i _ => if i == 1 then ⟨429, "busy", none⟩ else ⟨200, "", none⟩)
      2 (by decide)
      [⟨0, 500, []⟩] ⟨500, 1000, []⟩ [⟨1000, 1500, []⟩]
      (fun j hj => by
        match j, hj with
        | 0, _ => rfl)
      (fun _ => ⟨rfl, rfl⟩)
  exact ⟨h1, by rw [show toString (500 + 1) = "501" from rfl] at h2; exact h2, h3⟩

/-- Claim C8 counterexample: the claim says the diagnostic read never masks
the original refresh failure; but the diagnostic GET is not wrapped in a
try/except, so when the session GET itself raises, its exception propagates
instead of the original non-retryable failure: the error the caller sees is
the diagnostic exception, which does not carry the original body. -/
theorem c8_counterexample :
    refresh_pivot_table (fun _ => ⟨400, "BadRequestBody", none⟩)
        (.raised "connection reset") 3
      = .diagRaised "connection reset" 1 [] 1 ∧
    strContains "connection reset" "BadRequestBody" = false := by decide

/-- Claim C8, amended: on a non-retryable refresh failure a diagnostic read of
the pivot-table definitions is attempted (exactly one GET) before surfacing
the error; when that GET returns a response — successful or an error status —
the error raised is the original refresh failure; but when the GET itself
raises an exception, that exception propagates and masks the original
failure. -/
theorem c8_amended_diagnostic (N : Nat) (hN : 1 ≤ N) (posts : Nat → Resp)
    (h0 : (posts 0).ok = false) (h1 : refRetryable (posts 0) = false) :
    (∀ d : Resp, refresh_pivot_table posts (.resp d) N
      = .failedRefresh (refFailMsg (posts 0).text) 1 [] 1) ∧
    (∀ m : String, refresh_pivot_table posts (.raised m) N = .diagRaised m 1 [] 1) := by
  obtain ⟨M, rfl⟩ : ∃ M, N = M + 1 := ⟨N - 1, by omega⟩
  constructor
  · intro d
    exact refresh_pivot_table_firstNonRetryable_resp posts d M h0 h1
  · intro m
    exact refresh_pivot_table_firstNonRetryable_raised posts m M h0 h1

theorem c8_witness :
    refresh_pivot_table (fun _ => ⟨400, "BadRequestBody", none⟩)
        (.resp ⟨500, "diag error", none⟩) 3
      = .failedRefresh (refFailMsg "BadRequestBody") 1 [] 1 ∧
    refresh_pivot_table (fun _ => ⟨400, "BadRequestBody", none⟩)
        (.resp ⟨200, "[]", none⟩) 3
      = .failedRefresh (refFailMsg "BadRequestBody") 1 [] 1 := by
  obtain ⟨ha, _⟩ :=
    c8_amended_diagnostic 3 (by decide) (fun _ => ⟨400, "BadRequestBody", none⟩) rfl rfl
  exact ⟨ha ⟨500, "diag error", none⟩, ha ⟨200, "[]", none⟩⟩
